import Mathlib

/-!
Shallow embedding of `src/ssa_alg.py`, a Python transcription of
Braun et al., "Simple and Efficient Construction of Static Single
Assignment Form" (on-the-fly SSA construction with sealing, operandless
cycle-breaking phis, and trivial-phi elimination).

Modelling conventions:

* The IR is an arena (`SSAState.vals`) of `ValData` nodes addressed by
  index; Python object identity (`is`) is index equality.
* Blocks live in `SSAState.blocks`, addressed by index.  `Block.preds`
  is a list of block indices: the source annotates a set but indexes it
  with `preds[0]` and relies on enumeration order for phi operands.
* Python exceptions are modelled by the `Except Err` monad; an
  exception aborts the call, so state mutated before a raise is not
  observable in the result.
* The resolver's mutual recursion is not structurally terminating on
  the graph (the cycle-breaking memo write is what makes it terminate
  in practice), so every resolver function takes explicit fuel and
  raises `Err.outOfFuel` when it runs out.
* The source file is pseudocode-grade Python (the dataclass import is
  missing and `Phi(block)` elides the inherited constructor fields);
  `Phi(block)` is read as the paper's `new Phi(block)`: a fresh
  operandless phi owned by `block` with an empty users list.  Genuine
  control- and data-flow slips of the transcription are kept
  faithfully: the unbound `val` on the unsealed path (line 96 drops the
  binding), the misuse of `list.remove` in `tryRemoveTrivialPhi`
  (line 130), `appendOperand` never maintaining the users list
  (lines 55-56), `replaceBy` being an empty stub (lines 58-62), and
  `sealBlock` never draining the pending registry (lines 142-145).
-/

namespace SSA

/-- Python runtime exceptions that the transcription can raise, plus
`outOfFuel` for the fuel instrumentation of the embedding. -/
inductive Err where
  | outOfFuel
  | keyError
  | indexError
  | valueError
  | typeError
  | unboundLocal
  | attributeError
  deriving DecidableEq, Repr

/-- A source-level variable (`class Variable`).  The algorithm consults
only `name`; the `id` field models Python object identity so that
distinct `Variable` objects may share a name. -/
structure Variable where
  id : Nat
  name : String
  deriving DecidableEq, Repr

/-- An arena node: `Undef`, `Operation`, or `Phi`.  Operand and user
entries are arena indices; a phi additionally records the index of its
owning block. -/
inductive ValData where
  | undef
  | oper (name : String) (operands : List Nat)
  | phi (block : Nat) (operands : List Nat) (users : List Nat)
  deriving DecidableEq, Repr

/-- A CFG vertex (`class Block`): predecessor block indices, the local
def map `defs` keyed by variable name, and the `sealed` flag. -/
structure BlockData where
  preds : List Nat
  defs : List (String × Nat)
  sealed : Bool
  deriving DecidableEq, Repr

/-- The whole construction state: the value arena, the blocks, and the
pending-phi registry `incompletePhis` (block index to variable-name to
phi-index table). -/
structure SSAState where
  vals : List ValData
  blocks : List BlockData
  incompletePhis : List (Nat × List (String × Nat))
  deriving DecidableEq, Repr

/-- Lookup in an association list (Python `d[k]` and `k in d`). -/
def assocFind (k : String) : List (String × Nat) → Option Nat
  | [] => none
  | (k', v) :: rest => if k' = k then some v else assocFind k rest

/-- Update or insert in an association list (Python `d[k] = v`). -/
def assocSet (k : String) (v : Nat) : List (String × Nat) → List (String × Nat)
  | [] => [(k, v)]
  | (k', v') :: rest =>
    if k' = k then (k, v) :: rest else (k', v') :: assocSet k v rest

/-- Pending-phi registry lookup.  Modelled from the spec: block creation
is the external builder's job and, per the external-interface contract,
a created block "starts unsealed, empty defs, empty pending entry", so
`incompletePhis[block]` for a block with no registrations is an empty
table rather than a KeyError. -/
def regFind (b : Nat) : List (Nat × List (String × Nat)) → List (String × Nat)
  | [] => []
  | (b', e) :: rest => if b' = b then e else regFind b rest

/-- `block.defs[variable-name]` as seen from the state (`none` when the
block does not exist or its def map has no entry for the name). -/
def localDef (s : SSAState) (b : Nat) (n : String) : Option Nat :=
  match s.blocks[b]? with
  | some blk => assocFind n blk.defs
  | none => none

/-- Algorithm 1, `writeVariable` (line 81-82):
`block.defs[variable.name] = value`. -/
def writeVariable (v : Variable) (b : Nat) (x : Nat) (s : SSAState) : SSAState :=
  match s.blocks[b]? with
  | some blk =>
    { s with blocks := s.blocks.set b { blk with defs := assocSet v.name x blk.defs } }
  | none => s

/-- `Phi(block)`: allocate a fresh operandless phi owned by `b` with an
empty users list; its arena index is `s.vals.length`. -/
def allocPhi (b : Nat) (s : SSAState) : SSAState :=
  { s with vals := s.vals ++ [ValData.phi b [] []] }

/-- `Phi.appendOperand` (lines 55-56): `self.operands.append(operand)`.
Note that the users list of the appended operand is NOT updated. -/
def appendOperand (p : Nat) (op : Nat) (s : SSAState) : SSAState :=
  match s.vals[p]? with
  | some (ValData.phi b ops us) =>
    { s with vals := s.vals.set p (ValData.phi b (ops ++ [op]) us) }
  | _ => s

/-- The candidate scan of Algorithm 3 (lines 117-125), tracking `same`:
operands that are self-references or repeat the current candidate are
skipped.  `none` means the phi merges at least two distinct non-self
values (the early `return phi`); `some none` means no non-self operand
was found; `some (some x)` means `x` is the unique non-self operand. -/
def scanOperands (p : Nat) : List Nat → Option Nat → Option (Option Nat)
  | [], same => some same
  | op :: rest, same =>
    if same = some op ∨ op = p then scanOperands p rest same
    else
      match same with
      | some _ => none
      | none => scanOperands p rest (some op)

/-- Algorithm 3, `tryRemoveTrivialPhi` (lines 116-138), as transcribed.
After the scan decides the phi is trivial, line 128 may allocate a
fresh `Undef` as the substitute, but line 130 then executes
`users = phi.users.remove(phi)`: Python `list.remove` mutates in place
and returns `None`, raising `ValueError` when `phi` is not among its
own users.  When it does not raise, `users` is bound to `None`,
`phi.replaceBy(same)` (line 131) is an empty stub, and the cascade loop
`for use in users` (line 135) iterates `None`, raising `TypeError`.
Either way the call raises before returning, so the substitution cases
never return `same` and the state mutated beforehand is lost with the
exception. -/
def tryRemoveTrivialPhi (p : Nat) (s : SSAState) : Except Err (Nat × SSAState) :=
  match s.vals[p]? with
  | some (ValData.phi _ ops us) =>
    match scanOperands p ops none with
    | none => Except.ok (p, s)
    | some _ =>
      if p ∈ us then Except.error Err.typeError else Except.error Err.valueError
  | _ => Except.error Err.attributeError

mutual

/-- Algorithm 1, `readVariable` (lines 84-89): local value numbering via
`block.defs`, falling back to global value numbering. -/
def readVariable : Nat → Variable → Nat → SSAState → Except Err (Nat × SSAState)
  | 0, _, _, _ => Except.error Err.outOfFuel
  | fuel+1, v, b, s =>
    match s.blocks[b]? with
    | none => Except.error Err.keyError
    | some blk =>
      match assocFind v.name blk.defs with
      | some x => Except.ok (x, s)
      | none => readVariableRecursive fuel v b s
  termination_by structural fuel _ _ _ => fuel

/-- Algorithm 2, `readVariableRecursive` (lines 93-106).  All branches
flow into the shared trailing `writeVariable(variable, block, val)` of
line 105 before returning `val`. -/
def readVariableRecursive : Nat → Variable → Nat → SSAState → Except Err (Nat × SSAState)
  | 0, _, _, _ => Except.error Err.outOfFuel
  | fuel+1, v, b, s =>
    match s.blocks[b]? with
    | none => Except.error Err.keyError
    | some blk =>
      match
        (if blk.sealed = false then
          -- Line 96: `incompletePhis[block][variable] = Phi(block)` — the
          -- phi is created and registered, but the paper's `val ←` binding
          -- was dropped in the transcription, so line 105's
          -- `writeVariable(variable, block, val)` then raises
          -- UnboundLocalError.  The registration is unobservable here
          -- because the exception aborts the call.
          Except.error Err.unboundLocal
        else if blk.preds.length = 1 then
          -- Lines 97-99: single predecessor, no phi needed.
          match blk.preds[0]? with
          | none => Except.error Err.indexError
          | some p => readVariable fuel v p s
        else
          -- Lines 100-104: break potential cycles with an operandless
          -- phi, memoized into `block.defs` before the recursion.
          addPhiOperands fuel v s.vals.length
            (writeVariable v b s.vals.length (allocPhi b s))) with
      | Except.error e => Except.error e
      | Except.ok (val, s') => Except.ok (val, writeVariable v b val s')
  termination_by structural fuel _ _ _ => fuel

/-- Algorithm 2, `addPhiOperands` (lines 108-112): append one operand
per predecessor of `phi.block`, in enumeration order, then delegate to
`tryRemoveTrivialPhi`. -/
def addPhiOperands : Nat → Variable → Nat → SSAState → Except Err (Nat × SSAState)
  | 0, _, _, _ => Except.error Err.outOfFuel
  | fuel+1, v, p, s =>
    match s.vals[p]? with
    | some (ValData.phi b _ _) =>
      match s.blocks[b]? with
      | none => Except.error Err.keyError
      | some blk =>
        match appendOperandsLoop fuel v p blk.preds s with
        | Except.error e => Except.error e
        | Except.ok s' => tryRemoveTrivialPhi p s'
    | _ => Except.error Err.attributeError
  termination_by structural fuel _ _ _ => fuel

/-- The `for pred in phi.block.preds` loop of `addPhiOperands`
(lines 110-111): read the variable in each predecessor and append the
result as an operand of `p`. -/
def appendOperandsLoop : Nat → Variable → Nat → List Nat → SSAState → Except Err SSAState
  | 0, _, _, _, _ => Except.error Err.outOfFuel
  | fuel+1, v, p, preds, s =>
    match preds with
    | [] => Except.ok s
    | pred :: rest =>
      match readVariable fuel v pred s with
      | Except.error e => Except.error e
      | Except.ok (val, s') => appendOperandsLoop fuel v p rest (appendOperand p val s')
  termination_by structural fuel _ _ _ _ => fuel

end

/-- The `for variable in incompletePhis[block]` loop of Algorithm 4
(lines 143-144), over a snapshot of the registry entry.  The registry
stores the variable's name; the resolver only ever consults `.name`, so
the `Variable` object is rebuilt with a fixed object identity. -/
def sealLoop (fuel : Nat) : List (String × Nat) → SSAState → Except Err SSAState
  | [], s => Except.ok s
  | (n, pid) :: rest, s =>
    match addPhiOperands fuel ⟨0, n⟩ pid s with
    | Except.error e => Except.error e
    | Except.ok (_, s') => sealLoop fuel rest s'

/-- Algorithm 4, `sealBlock` (lines 142-145): complete every pending phi
registered for `b`, then set `block.sealed = True`.  Note the registry
entry for `b` is never cleared by the source. -/
def sealBlock (fuel : Nat) (b : Nat) (s : SSAState) : Except Err SSAState :=
  match sealLoop fuel (regFind b s.incompletePhis) s with
  | Except.error e => Except.error e
  | Except.ok s' =>
    match s'.blocks[b]? with
    | some blk => Except.ok { s' with blocks := s'.blocks.set b { blk with sealed := true } }
    | none => Except.error Err.keyError

/-! ### Facts preserved by the resolver, and concrete fixtures -/

/-- Facts preserved by every completed resolver operation: the number
of blocks and the pending-phi registry.  (The registry is only ever
written on the unsealed read path, which raises before returning, so no
completed operation can change it.) -/
def Pres (s s' : SSAState) : Prop :=
  s'.blocks.length = s.blocks.length ∧ s'.incompletePhis = s.incompletePhis

/-- A concrete variable object named `x`. -/
def vx : Variable := ⟨0, "x"⟩

/-- A straight-line chain of `n + 1` sealed blocks: block `0` is the
entry and defines `x` as value `0` (an `Operation`), and block `j + 1`
has the single predecessor `j` and an empty def map. -/
def chainState (n : Nat) : SSAState :=
  ⟨[ValData.oper "c" []],
   ⟨[], [("x", 0)], true⟩ :: (List.range n).map (fun j => ⟨[j], [], true⟩),
   []⟩

/-- Fixture: an operandless, userless phi (the shape a zero-predecessor
merge produces). -/
def stC2 : SSAState := ⟨[ValData.phi 0 [] []], [⟨[], [], true⟩], []⟩

/-- Fixture: phi `0` merging two distinct non-self operands `1` and
`2`. -/
def stC2b : SSAState :=
  ⟨[ValData.phi 0 [1, 2] [], ValData.oper "a" [], ValData.oper "b" []],
   [⟨[], [], true⟩], []⟩

/-- Fixture: phi `0` with the single non-self operand `1` and users
`[0, 2]` (it is its own user, and phi `2` holds it as an operand). -/
def stC3 : SSAState :=
  ⟨[ValData.phi 0 [1] [0, 2], ValData.oper "c" [], ValData.phi 0 [0, 1] []],
   [⟨[], [], true⟩], []⟩

/-- Fixture: one unsealed block with an empty def map. -/
def stC6 : SSAState := ⟨[], [⟨[], [], false⟩], []⟩

/-- Fixture: phi `0` owned by block `0` whose two predecessors define
`x` as phi `1` and operation `2` respectively. -/
def stC7 : SSAState :=
  ⟨[ValData.phi 0 [] [], ValData.phi 1 [] [], ValData.oper "k" []],
   [⟨[1, 2], [], true⟩, ⟨[], [("x", 1)], true⟩, ⟨[], [("x", 2)], true⟩], []⟩

/-- The state `addPhiOperands` produces from `stC7`: phi `0` gained the
operands `[1, 2]` in predecessor order, but phi `1` (now an operand of
phi `0`) still has an empty users list. -/
def stC7' : SSAState :=
  ⟨[ValData.phi 0 [1, 2] [], ValData.phi 1 [] [], ValData.oper "k" []],
   [⟨[1, 2], [], true⟩, ⟨[], [("x", 1)], true⟩, ⟨[], [("x", 2)], true⟩], []⟩

/-- Fixture: a sealed two-predecessor merge block `0` whose
predecessors define `x` as the distinct operations `0` and `1`. -/
def stC8 : SSAState :=
  ⟨[ValData.oper "a" [], ValData.oper "b" []],
   [⟨[1, 2], [], true⟩, ⟨[], [("x", 0)], true⟩, ⟨[], [("x", 1)], true⟩], []⟩

/-- The state the first `readVariable` call on `stC8` produces: a fresh
nontrivial phi `2` was created, memoized into block `0`'s defs, and
returned. -/
def stC8' : SSAState :=
  ⟨[ValData.oper "a" [], ValData.oper "b" [], ValData.phi 0 [0, 1] []],
   [⟨[1, 2], [("x", 2)], true⟩, ⟨[], [("x", 0)], true⟩, ⟨[], [("x", 1)], true⟩], []⟩

/-- Fixture: one sealed block with zero predecessors and no defs. -/
def stC9 : SSAState := ⟨[], [⟨[], [], true⟩], []⟩

/-- Fixture for sealing: block `0` is unsealed with predecessors `1`
and `2` (which define `x` as distinct values `1` and `2`), and the
pending-phi registry holds the operandless phi `0` for variable `x` in
block `0`. -/
def stC5 : SSAState :=
  ⟨[ValData.phi 0 [] [], ValData.oper "a" [], ValData.oper "b" []],
   [⟨[1, 2], [], false⟩, ⟨[], [("x", 1)], true⟩, ⟨[], [("x", 2)], true⟩],
   [(0, [("x", 0)])]⟩

/-- The state `sealBlock` produces from `stC5`: the pending phi was
completed (operands `[1, 2]`) and the block sealed, but the registry
entry for block `0` is still present. -/
def stC5' : SSAState :=
  ⟨[ValData.phi 0 [1, 2] [], ValData.oper "a" [], ValData.oper "b" []],
   [⟨[1, 2], [], true⟩, ⟨[], [("x", 1)], true⟩, ⟨[], [("x", 2)], true⟩],
   [(0, [("x", 0)])]⟩

/-- Fixture: one unsealed block, nothing pending. -/
def stC5e : SSAState := ⟨[], [⟨[], [], false⟩], []⟩

/-- Fixture for C1's witness: a sealed two-predecessor block. -/
def stC1 : SSAState :=
  ⟨[ValData.oper "a" [], ValData.oper "b" []],
   [⟨[1, 2], [], true⟩, ⟨[], [("x", 0)], true⟩, ⟨[], [("x", 1)], true⟩], []⟩

/-- Fixture for C4's witness: block `0` sealed with the single
predecessor `1`, which defines `x` as value `0`. -/
def stC4 : SSAState :=
  ⟨[ValData.oper "a" []],
   [⟨[1], [], true⟩, ⟨[], [("x", 0)], true⟩], []⟩

/-- Fixture for C10's witness: a single sealed block with an empty def
map. -/
def stC10 : SSAState := ⟨[], [⟨[], [], true⟩], []⟩

/-! ### Basic lemmas about the state helpers -/

theorem assocFind_assocSet (k : String) (x : Nat) :
    ∀ l : List (String × Nat), assocFind k (assocSet k x l) = some x := by
  intro l
  induction l with
  | nil => simp [assocFind, assocSet]
  | cons hd tl ih =>
    obtain ⟨k', v'⟩ := hd
    by_cases hk : k' = k
    · simp [assocFind, assocSet, hk]
    · simp [assocFind, assocSet, hk, ih]

theorem getBlock_lt {s : SSAState} {b : Nat} {blk : BlockData}
    (h : s.blocks[b]? = some blk) : b < s.blocks.length := by
  obtain ⟨h1, _⟩ := List.getElem?_eq_some.mp h
  exact h1

theorem pres_refl {s : SSAState} : Pres s s := ⟨rfl, rfl⟩

theorem pres_trans {s₁ s₂ s₃ : SSAState} (h : Pres s₁ s₂) (h' : Pres s₂ s₃) :
    Pres s₁ s₃ := ⟨h'.1.trans h.1, h'.2.trans h.2⟩

theorem pres_writeVariable {s : SSAState} {v : Variable} {b x : Nat} :
    Pres s (writeVariable v b x s) := by
  unfold writeVariable
  rcases h : s.blocks[b]? with _ | blk <;> simp [Pres]

theorem pres_allocPhi {s : SSAState} {b : Nat} : Pres s (allocPhi b s) := ⟨rfl, rfl⟩

theorem pres_appendOperand {s : SSAState} {p op : Nat} :
    Pres s (appendOperand p op s) := by
  unfold appendOperand
  rcases h : s.vals[p]? with _ | v
  · simp [Pres]
  · rcases v with _ | _ | _ <;> simp [Pres]

theorem tryRemoveTrivialPhi_ok {p : Nat} {s : SSAState} {x : Nat} {s' : SSAState}
    (h : tryRemoveTrivialPhi p s = Except.ok (x, s')) : x = p ∧ s' = s := by
  unfold tryRemoveTrivialPhi at h
  split at h
  · split at h
    · cases h; exact ⟨rfl, rfl⟩
    · split at h <;> simp at h
  · simp at h

theorem pres_mutual : ∀ fuel : Nat,
    (∀ v b s x s', readVariable fuel v b s = Except.ok (x, s') → Pres s s') ∧
    (∀ v b s x s', readVariableRecursive fuel v b s = Except.ok (x, s') → Pres s s') ∧
    (∀ v p s x s', addPhiOperands fuel v p s = Except.ok (x, s') → Pres s s') ∧
    (∀ v p preds s s', appendOperandsLoop fuel v p preds s = Except.ok s' → Pres s s') := by
  intro fuel
  induction fuel with
  | zero =>
    refine ⟨?_, ?_, ?_, ?_⟩ <;> intro _ _ _ _ _ h <;>
      simp [readVariable, readVariableRecursive, addPhiOperands, appendOperandsLoop] at h
  | succ f ih =>
    obtain ⟨ihR, ihRR, ihA, ihL⟩ := ih
    refine ⟨?_, ?_, ?_, ?_⟩
    · intro v b s x s' h
      simp only [readVariable] at h
      split at h
      · simp at h
      · split at h
        · cases h; exact pres_refl
        · exact ihRR _ _ _ _ _ h
    · intro v b s x s' h
      simp only [readVariableRecursive] at h
      split at h
      · simp at h
      · split at h
        · simp at h
        · rename_i val s₃ heq₂
          cases h
          have hbranch : Pres s s₃ := by
            split at heq₂
            · simp at heq₂
            · split at heq₂
              · split at heq₂
                · simp at heq₂
                · exact ihR _ _ _ _ _ heq₂
              · exact pres_trans (pres_trans pres_allocPhi pres_writeVariable)
                  (ihA _ _ _ _ _ heq₂)
          exact pres_trans hbranch pres_writeVariable
    · intro v p s x s' h
      simp only [addPhiOperands] at h
      split at h
      · split at h
        · simp at h
        · split at h
          · simp at h
          · rename_i s₂ heq₂
            obtain ⟨_, hs⟩ := tryRemoveTrivialPhi_ok h
            subst hs
            exact ihL _ _ _ _ _ heq₂
      · simp at h
    · intro v p preds s s' h
      simp only [appendOperandsLoop] at h
      split at h
      · cases h; exact pres_refl
      · split at h
        · simp at h
        · rename_i val s₂ heq₂
          exact pres_trans (pres_trans (ihR _ _ _ _ _ heq₂) pres_appendOperand)
            (ihL _ _ _ _ _ h)

theorem pres_readVariable {fuel : Nat} {v : Variable} {b : Nat} {s : SSAState}
    {x : Nat} {s' : SSAState} (h : readVariable fuel v b s = Except.ok (x, s')) :
    Pres s s' := (pres_mutual fuel).1 v b s x s' h

theorem pres_readVariableRecursive {fuel : Nat} {v : Variable} {b : Nat} {s : SSAState}
    {x : Nat} {s' : SSAState} (h : readVariableRecursive fuel v b s = Except.ok (x, s')) :
    Pres s s' := (pres_mutual fuel).2.1 v b s x s' h

theorem pres_addPhiOperands {fuel : Nat} {v : Variable} {p : Nat} {s : SSAState}
    {x : Nat} {s' : SSAState} (h : addPhiOperands fuel v p s = Except.ok (x, s') ) :
    Pres s s' := (pres_mutual fuel).2.2.1 v p s x s' h

theorem pres_appendOperandsLoop {fuel : Nat} {v : Variable} {p : Nat} {preds : List Nat}
    {s s' : SSAState} (h : appendOperandsLoop fuel v p preds s = Except.ok s') :
    Pres s s' := (pres_mutual fuel).2.2.2 v p preds s s' h

theorem pres_sealLoop {fuel : Nat} : ∀ {entries : List (String × Nat)} {s s' : SSAState},
    sealLoop fuel entries s = Except.ok s' → Pres s s' := by
  intro entries
  induction entries with
  | nil => intro s s' h; cases h; exact pres_refl
  | cons hd tl ih =>
    intro s s' h
    obtain ⟨n, pid⟩ := hd
    simp only [sealLoop] at h
    split at h
    · simp at h
    · rename_i r heq
      obtain ⟨val, s₂⟩ := r
      exact pres_trans (pres_addPhiOperands heq) (ih h)

/-- After a completed `writeVariable`, the written entry is the local
def for the variable's name. -/
theorem localDef_writeVariable_self {s : SSAState} {v : Variable} {b x : Nat}
    (h : b < s.blocks.length) : localDef (writeVariable v b x s) b v.name = some x := by
  have hb : s.blocks[b]? = some s.blocks[b] := List.getElem?_eq_getElem h
  simp [writeVariable, hb, localDef, List.getElem?_set_self h, assocFind_assocSet]

/-- Every completed `readVariableRecursive` memoizes its result into
`block.defs` (the shared trailing write of line 105). -/
theorem readVariableRecursive_ok_localDef {fuel : Nat} {v : Variable} {b : Nat}
    {s : SSAState} {x : Nat} {s' : SSAState}
    (h : readVariableRecursive fuel v b s = Except.ok (x, s')) :
    localDef s' b v.name = some x := by
  have hp : Pres s s' := pres_readVariableRecursive h
  match fuel with
  | 0 => simp [readVariableRecursive] at h
  | f+1 =>
    simp only [readVariableRecursive] at h
    split at h
    · simp at h
    · rename_i blk heqb
      split at h
      · simp at h
      · rename_i val s₃ heq₂
        cases h
        apply localDef_writeVariable_self
        have h2 := hp.1
        rw [(pres_writeVariable (s := s₃)).1] at h2
        rw [h2]
        exact getBlock_lt heqb

/-- Every completed `readVariable` leaves (or finds) its result as the
local def for the variable's name in the block that was read. -/
theorem readVariable_ok_localDef {fuel : Nat} {v : Variable} {b : Nat}
    {s : SSAState} {x : Nat} {s' : SSAState}
    (h : readVariable fuel v b s = Except.ok (x, s')) :
    localDef s' b v.name = some x := by
  match fuel with
  | 0 => simp [readVariable] at h
  | f+1 =>
    simp only [readVariable] at h
    split at h
    · simp at h
    · rename_i blk heqb
      split at h
      · rename_i x₀ heqf
        cases h
        simp [localDef, heqb, heqf]
      · exact readVariableRecursive_ok_localDef h

theorem writeVariable_vals {s : SSAState} {v : Variable} {b x : Nat} :
    (writeVariable v b x s).vals = s.vals := by
  unfold writeVariable
  rcases h : s.blocks[b]? with _ | blk <;> simp

/-! ### The claims -/

/-- Claim C8: `readVariable` is idempotent — when a `readVariable`
call completes with value `x` and state `s₁`, an immediately repeated
read of the same variable and block on `s₁` returns the identity-same
value `x` and leaves the state untouched, including when the first call
created a phi.  (A first call that raises one of the transcription's
exceptions returns nothing and is outside the claim's scope.) -/
theorem claim_C8_readVariable_idempotent {fuel g : Nat} {v : Variable} {b : Nat}
    {s : SSAState} {x : Nat} {s₁ : SSAState}
    (h : readVariable fuel v b s = Except.ok (x, s₁)) :
    readVariable (g+1) v b s₁ = Except.ok (x, s₁) := by
  have hl := readVariable_ok_localDef h
  unfold localDef at hl
  rcases heq : s₁.blocks[b]? with _ | blk
  · rw [heq] at hl
    simp at hl
  · rw [heq] at hl
    simp only at hl
    simp [readVariable, heq, hl]

/-- Claim C8 witness: on `stC8` the first read creates and memoizes a
nontrivial phi (value `2`), and the repeated read returns the same
value and state. -/
theorem claim_C8_witness :
    readVariable 3 vx 0 stC8' = Except.ok (2, stC8') :=
  @claim_C8_readVariable_idempotent 10 2 vx 0 stC8 2 stC8' (by rfl)

/-- Claim C10: the def map is keyed by the variable's name string, so
distinct `Variable` objects alias when their names are equal — writing
`x` for `u` in block `b` and then reading `w` with `u.name = w.name`
returns `x`. -/
theorem claim_C10_name_aliasing {fuel : Nat} {u w : Variable} {b x : Nat}
    {s : SSAState} {blk : BlockData}
    (hb : s.blocks[b]? = some blk) (hn : u.name = w.name) :
    readVariable (fuel+1) w b (writeVariable u b x s) =
      Except.ok (x, writeVariable u b x s) := by
  simp only [readVariable, writeVariable, hb]
  rw [List.getElem?_set_self (getBlock_lt hb)]
  rw [← hn]
  simp [assocFind_assocSet]

/-- Claim C10 witness: the distinct objects `⟨0, "x"⟩` and `⟨1, "x"⟩`
alias in block `0` of `stC10`. -/
theorem claim_C10_witness :
    readVariable 1 ⟨1, "x"⟩ 0 (writeVariable vx 0 7 stC10) =
      Except.ok (7, writeVariable vx 0 7 stC10) :=
  @claim_C10_name_aliasing 0 vx ⟨1, "x"⟩ 0 7 stC10 ⟨[], [], true⟩ rfl rfl

/-- Claim C2 (code bug): the candidate scan and the nontrivial early
return work as claimed (`stC2b` merges the two distinct values `1` and
`2` and is returned unchanged), but in the substitution cases the
transcription never returns the substitute: on the operandless,
userless phi of `stC2` the claim requires a fresh `Undef` to be
substituted and returned, while line 130's
`users = phi.users.remove(phi)` raises ValueError (`list.remove`
returns `None` and raises when `phi` is absent from its own users). -/
theorem claim_C2_substitution_raises :
    tryRemoveTrivialPhi 0 stC2b = Except.ok (0, stC2b) ∧
    tryRemoveTrivialPhi 0 stC2 = Except.error Err.valueError :=
  ⟨rfl, rfl⟩

/-- Claim C3 (code bug): replacement never happens.  On `stC3` the phi
is trivial (single non-self operand `1`) and is its own user, so
line 130's `list.remove` succeeds as a mutation but binds `users` to
`None`; `replaceBy` (line 131) is an empty stub that rewrites nothing,
and the cascade loop `for use in users` (line 135) then iterates `None`
and raises TypeError — no user's operand slot is ever rewritten. -/
theorem claim_C3_replacement_raises :
    tryRemoveTrivialPhi 0 stC3 = Except.error Err.typeError := rfl

/-- Claim C6 (code bug): reading a variable in an unsealed block with no
local definition must register a provisional phi, memoize it, and
return it, but the transcription of line 96 dropped the paper's
`val ←` binding, so after registering the phi the shared trailing
`writeVariable(variable, block, val)` of line 105 hits the unbound
local `val` and raises UnboundLocalError instead of returning. -/
theorem claim_C6_unsealed_read_raises :
    readVariable 5 vx 0 stC6 = Except.error Err.unboundLocal := rfl

/-- Claim C7 (code bug): on `stC7`, `addPhiOperands` appends one operand
per predecessor in enumeration order and delegates to
`tryRemoveTrivialPhi` as claimed (phi `0` ends with operands `[1, 2]`
and, being nontrivial, is returned), but `appendOperand` (lines 55-56)
is a bare `operands.append` that never adds the phi to the appended
operand's users set: phi `1` became an operand of phi `0` yet its users
list is still empty. -/
theorem claim_C7_users_not_updated :
    addPhiOperands 10 vx 0 stC7 = Except.ok (0, stC7') ∧
    stC7'.vals[0]? = some (ValData.phi 0 [1, 2] []) ∧
    stC7'.vals[1]? = some (ValData.phi 1 [] []) :=
  ⟨rfl, rfl, rfl⟩

/-- Claim C9 (code bug): reading an undefined variable in a sealed
zero-predecessor block must resolve to a fresh `Undef` without raising,
but the zero-operand phi reaches the trivial-substitution path of
`tryRemoveTrivialPhi`, where line 130's `list.remove` raises
ValueError (the phi has no users), so the read raises instead of
returning an `Undef`. -/
theorem claim_C9_unreachable_read_raises :
    readVariable 5 vx 0 stC9 = Except.error Err.valueError := rfl

/-- Claim C1: on a sealed block whose predecessor count is not one,
`readVariableRecursive` allocates a fresh operandless phi owned by the
block (the fresh arena index `s.vals.length`, absent from the old
arena), writes it into the block's defs BEFORE recursing into any
predecessor (the state handed to `addPhiOperands` already maps the
variable to the phi, so a recursive read looping back into the block
finds the placeholder), then calls `addPhiOperands` and returns exactly
what that completion returns (threaded through the shared memoizing
write of line 105). -/
theorem claim_C1_multi_pred_placeholder {fuel : Nat} {v : Variable} {b : Nat}
    {s : SSAState} {blk : BlockData}
    (hb : s.blocks[b]? = some blk) (hs : blk.sealed = true)
    (hp : blk.preds.length ≠ 1) :
    readVariableRecursive (fuel+1) v b s =
      (match addPhiOperands fuel v s.vals.length
          (writeVariable v b s.vals.length (allocPhi b s)) with
        | Except.error e => Except.error e
        | Except.ok (val, s') => Except.ok (val, writeVariable v b val s')) ∧
    (allocPhi b s).vals[s.vals.length]? = some (ValData.phi b [] []) ∧
    s.vals[s.vals.length]? = none ∧
    localDef (writeVariable v b s.vals.length (allocPhi b s)) b v.name =
      some s.vals.length := by
  refine ⟨?_, ?_, ?_, ?_⟩
  · simp [readVariableRecursive, hb, hs, hp]
  · simp [allocPhi, List.getElem?_concat_length]
  · exact List.getElem?_eq_none (Nat.le_refl _)
  · exact localDef_writeVariable_self (getBlock_lt hb)

/-- Claim C1 witness: the sealed two-predecessor block `0` of `stC1`
(fresh phi index `2`). -/
theorem claim_C1_witness :
    readVariableRecursive 9 vx 0 stC1 =
      (match addPhiOperands 8 vx 2 (writeVariable vx 0 2 (allocPhi 0 stC1)) with
        | Except.error e => Except.error e
        | Except.ok (val, s') => Except.ok (val, writeVariable vx 0 val s')) ∧
    (allocPhi 0 stC1).vals[2]? = some (ValData.phi 0 [] []) ∧
    stC1.vals[2]? = none ∧
    localDef (writeVariable vx 0 2 (allocPhi 0 stC1)) 0 "x" = some 2 :=
  @claim_C1_multi_pred_placeholder 8 vx 0 stC1 ⟨[1, 2], [], true⟩ rfl rfl (by decide)

/-- Claim C4: on a sealed block with exactly one predecessor `p`,
`readVariableRecursive` returns the result of recursively reading the
variable in `p` (threaded through the memoizing write) and allocates no
phi; and down the straight-line chain `chainState n` of sealed
single-predecessor blocks, reading `x` at any block `i ≤ n` returns the
identity-same value `0` defined in the entry block, with the value
arena unchanged (no phi was ever created). -/
theorem claim_C4_single_pred_no_phi :
    (∀ (fuel : Nat) (v : Variable) (b p : Nat) (s : SSAState) (blk : BlockData),
      s.blocks[b]? = some blk → blk.sealed = true → blk.preds = [p] →
      readVariableRecursive (fuel+1) v b s =
        (match readVariable fuel v p s with
          | Except.error e => Except.error e
          | Except.ok (val, s') => Except.ok (val, writeVariable v b val s'))) ∧
    (∀ n i : Nat, i ≤ n →
      ∃ s', readVariable (2*i+1) vx i (chainState n) = Except.ok (0, s') ∧
        s'.vals = (chainState n).vals) := by
  constructor
  · intro fuel v b p s blk hb hs hp
    simp [readVariableRecursive, hb, hs, hp]
  · intro n i
    induction i with
    | zero =>
      intro _
      refine ⟨chainState n, ?_, rfl⟩
      show readVariable 1 vx 0 (chainState n) = Except.ok (0, chainState n)
      simp [readVariable, chainState, assocFind, vx]
    | succ i ih =>
      intro hle
      obtain ⟨s', hrd, hvals⟩ := ih (Nat.le_of_succ_le hle)
      refine ⟨writeVariable vx (i+1) 0 s', ?_, ?_⟩
      · have hblk : (chainState n).blocks[i+1]? = some ⟨[i], [], true⟩ := by
          simp [chainState, List.getElem?_cons_succ, List.getElem?_map,
            List.getElem?_range (Nat.lt_of_succ_le hle)]
        have hfuel : 2*(i+1)+1 = ((2*i+1)+1)+1 := by ring
        rw [hfuel]
        simp only [readVariable, hblk]
        simp only [assocFind]
        simp only [readVariableRecursive, hblk]
        simp [hrd]
      · rw [writeVariable_vals, hvals]

/-- Claim C4 witness: the single-predecessor law at block `0` of
`stC4`, and the chain of length `2` read at its last block. -/
theorem claim_C4_witness :
    (readVariableRecursive 4 vx 0 stC4 =
      (match readVariable 3 vx 1 stC4 with
        | Except.error e => Except.error e
        | Except.ok (val, s') => Except.ok (val, writeVariable vx 0 val s'))) ∧
    (∃ s', readVariable 5 vx 2 (chainState 2) = Except.ok (0, s') ∧
      s'.vals = (chainState 2).vals) :=
  ⟨claim_C4_single_pred_no_phi.1 3 vx 0 1 stC4 ⟨[1], [], true⟩ rfl rfl rfl,
   claim_C4_single_pred_no_phi.2 2 2 (by decide)⟩

/-- Claim C5 (amended): `sealBlock` runs `addPhiOperands` on every
pending entry of the block's registry snapshot and then sets the
block's `sealed` flag to true, and is safe to call on a block with zero
pending entries; but it does NOT clear (drain) the registry entry — the
pending-phi registry of a completed `sealBlock` is exactly the one it
started from. -/
theorem claim_C5_sealBlock_amended :
    (∀ (fuel b : Nat) (s : SSAState) (blk : BlockData), s.blocks[b]? = some blk →
      regFind b s.incompletePhis = [] →
      sealBlock fuel b s =
        Except.ok { s with blocks := s.blocks.set b { blk with sealed := true } }) ∧
    (∀ (fuel b : Nat) (s s' : SSAState), sealBlock fuel b s = Except.ok s' →
      s'.incompletePhis = s.incompletePhis ∧
      ∃ blk', s'.blocks[b]? = some blk' ∧ blk'.sealed = true) := by
  constructor
  · intro fuel b s blk hb hreg
    simp [sealBlock, hreg, sealLoop, hb]
  · intro fuel b s s' h
    unfold sealBlock at h
    split at h
    · simp at h
    · rename_i s₂ heq
      split at h
      · rename_i blk₂ heqb
        cases h
        refine ⟨(pres_sealLoop heq).2, ⟨{ blk₂ with sealed := true }, ?_, rfl⟩⟩
        exact List.getElem?_set_self (getBlock_lt heqb)
      · simp at h

/-- Claim C5 counterexample: sealing block `0` of `stC5` completes the
pending phi (it gains the operands `[1, 2]`) and seals the block, yet
the registry entry for block `0` is still present afterwards — the
claim's "after sealing the registry holds no entry for b" is false. -/
theorem claim_C5_counterexample :
    sealBlock 10 0 stC5 = Except.ok stC5' ∧
    regFind 0 stC5'.incompletePhis = [("x", 0)] ∧
    stC5'.vals[0]? = some (ValData.phi 0 [1, 2] []) ∧
    stC5'.blocks[0]? = some ⟨[1, 2], [], true⟩ :=
  ⟨rfl, rfl, rfl, rfl⟩

/-- Claim C5 witness: the amended claim at the pending-free block of
`stC5e` and at the completed seal of `stC5`. -/
theorem claim_C5_witness :
    sealBlock 3 0 stC5e = Except.ok ⟨[], [⟨[], [], true⟩], []⟩ ∧
    (stC5'.incompletePhis = stC5.incompletePhis ∧
      ∃ blk', stC5'.blocks[0]? = some blk' ∧ blk'.sealed = true) :=
  ⟨claim_C5_sealBlock_amended.1 3 0 stC5e ⟨[], [], false⟩ rfl rfl,
   claim_C5_sealBlock_amended.2 10 0 stC5 stC5' (by rfl)⟩

end SSA
